import Mathlib

/-!
Verification of `kconfig-select`

A shallow embedding of the decision-making core of `kconfig-select.py`:
the config-store scanner, the restore ("config") and backup ("backup")
operations with their revision-probing loop, the atomic file-copy
primitive, and the build-type detection strategy.

Modelling conventions:

* Per the data model (spec §3), a config-store subdirectory holds only
  flat regular files and symlinks.  A directory is an association list
  from basename to node.  Regular files are identified by their SHA-256
  content hash (a `String`), which is the only thing the program ever
  compares or copies; the hash function itself (`hashlib`) is an external
  primitive, so file contents are represented directly by their hash.
* External inputs (the first line of `<src>/Makefile`, the result of
  `os.DirEntry.is_file(follow_symlinks=True)` for the scanner model,
  today's date, injected I/O failures for the copy primitive) are
  parameters of the corresponding functions.
* Python strings are Lean `String`s; character-level operations
  (`str.strip`, `str.partition`, slicing) act on `String.data`.
* The git-commit step of a backup (`git add` / `git commit`) is an
  external subprocess that does not change the names or contents of the
  files in the store directory, so it does not appear in the directory
  state transition.
-/

namespace KconfigSelect

/-- A node of a config-store subdirectory: a regular file (represented by
its SHA-256 content hash) or a symbolic link to another basename in the
same directory.  Spec §3: the store holds nothing but flat files and
symlinks. -/
inductive FsNode where
  | file (hash : String)
  | link (target : String)
deriving DecidableEq

/-- A config-store subdirectory: basenames mapped to nodes. -/
abbrev Dir := List (String × FsNode)

/-- Look a basename up in a directory. -/
def lookupNode (d : Dir) (n : String) : Option FsNode :=
  d.lookup n

/-- `os.unlink` (with `FileNotFoundError` ignored): remove the binding of
a basename. -/
def dirErase (d : Dir) (n : String) : Dir :=
  d.filter (fun e => e.1 != n)

/-- `os.replace` onto / `os.symlink` at basename `n`: bind `n` to node
`v`, replacing any previous binding. -/
def dirSet (d : Dir) (n : String) (v : FsNode) : Dir :=
  (n, v) :: dirErase d n

/-- Resolve a basename to the content hash of the regular file it
denotes, following symlink chains (fuel-bounded; a chain that runs out of
fuel is a loop, which the OS refuses to follow).  `none` when the name is
absent, dangling, or a link loop — exactly when
`is_file(follow_symlinks=True)` is false for that directory entry. -/
def resolveFile : Nat → Dir → String → Option String
  | 0, _, _ => none
  | fuel + 1, d, n =>
    match lookupNode d n with
    | some (.file h) => some h
    | some (.link t) => resolveFile fuel d t
    | none => none

/-- The name filter of `BuildType.list_config_dir`: the basename must not
start with `.` (the code tests `e.name[0] != "."`), must not start with
`README`, and must not end with `.tmp`.  Directory entries never have
empty names (`os.scandir` guarantees it); the `[]` case is therefore
arbitrary and chosen `false`. -/
def nameOk (n : String) : Bool :=
  match n.data with
  | [] => false
  | c :: _ =>
    (c != '.') && !(("README".data.isPrefixOf n.data)) && !((".tmp".data.isSuffixOf n.data))

/-- The scanner (`BuildType.list_config_dir`) viewed at a single name of
a `Dir`: `some h` iff the name is a key of the scanner's result map, in
which case `h` is the content hash `get_file_hash` computes for that
entry's path (symlinks followed). -/
def cmapGet (d : Dir) (n : String) : Option String :=
  if nameOk n then resolveFile (d.length + 1) d n else none

/-- The keys of the scanner's result map for a `Dir`. -/
def cmapKeys (d : Dir) : List String :=
  (d.map Prod.fst).filter (fun n => (cmapGet d n).isSome)

/-- A raw `os.scandir` entry as the scanner sees it: its basename and the
result of `entry.is_file(follow_symlinks=True)` (an OS primitive, hence a
field of the input). -/
structure ScanEntry where
  name : String
  isFile : Bool
deriving DecidableEq

/-- `BuildType.list_config_dir`: keep exactly the entries that are
regular files (symlinks followed) and pass the `nameOk` filter.  The
result list stands for the code's `{e.name: e for e in ...}` map: a name
is a key of that map iff some entry with that name is kept here. -/
def list_config_dir (entries : List ScanEntry) : List ScanEntry :=
  entries.filter (fun e => e.isFile && nameOk e.name)

/-- `BuildType.run_list`.  Input `store` is `none` when the config-store
subdirectory is missing (`get_config_dir` caught `FileNotFoundError`).
Returns (completed-without-failure, printed lines).  The code returns
`False` (failure) when the scanner map is missing *or empty*
(`if not cmap`), and otherwise prints the entries sorted by basename
(full paths in long format) and falls off the end (success). -/
def run_list (cdir : String) (store : Option Dir) (longFormat : Bool) : Bool × List String :=
  match store with
  | none => (false, [])
  | some d =>
    let keys := cmapKeys d
    if keys.isEmpty then (false, [])
    else
      (true, (keys.mergeSort (fun a b => a ≤ b)).map
        (fun n => if longFormat then cdir ++ "/" ++ n else n))

/-- `BuildType.run_config` (the restore operation), for an
already-defaulted name (the code replaces a falsy name by `"latest"`
first).  `bcOld` is the current content of the build-config file
(`none` if absent); the returned `Option String` is its content
afterwards.  Failure paths: missing store directory (`store = none`),
empty scanner map (`if not cmap`), and name absent (`KeyError` caught,
"config file not found" reported) — all return `False` without touching
the build-config file.  On success the resolved content of the chosen
store entry is copied onto the build-config file. -/
def run_config (store : Option Dir) (name : String) (bcOld : Option String) :
    Bool × Option String :=
  match store with
  | none => (false, bcOld)
  | some d =>
    if (cmapKeys d).isEmpty then (false, bcOld)
    else
      match cmapGet d name with
      | none => (false, bcOld)
      | some h => (true, some h)

/-- The candidate-name generator `fgen` of `BuildType.run_backup`: the
requested base name first, then `f"{basename}-r{revno}"` for
`revno = 1, 2, …`. -/
def fgen (basename : String) : Nat → String
  | 0 => basename
  | k + 1 => basename ++ "-r" ++ Nat.repr (k + 1)

/-- Outcome of a backup run: a copy was performed under the given
basename; an existing entry with identical hash was found (with a "file
not changed" message); or the run fell through with `want_copy` still at
its initial `False` and did nothing at all — the silent no-op of the
branchless "directory exists, name absent" case (the `if cmap is None /
elif name in cmap` dispatch has no `else`).  The probing loop itself only
ever ends in the first two. -/
inductive Outcome where
  | copied (name : String)
  | notChanged (name : String)
  | noCopy
deriving DecidableEq

/-- The message `run_backup` writes to stdout when it finds an existing
entry whose hash matches the build-config file. -/
def Outcome.stdout : Outcome → Option String
  | .copied _ => none
  | .notChanged n => some ("File not changed: " ++ n)
  | .noCopy => none

/-- The probing loop of `run_backup` (`for name in fgen(basename)`),
fuel-bounded: for each candidate in turn, a candidate absent from the
scanner map is taken as the copy target (`want_copy = True; break`); a
present candidate whose hash equals the build-config hash stops the
backup (`want_copy = False; break`); a present candidate with a different
hash is skipped. -/
def probeLoop (d : Dir) (bc : String) (base : String) : Nat → Nat → Option Outcome
  | 0, _ => none
  | fuel + 1, i =>
    match cmapGet d (fgen base i) with
    | none => some (.copied (fgen base i))
    | some h =>
      if bc = h then some (.notChanged (fgen base i))
      else probeLoop d bc base fuel (i + 1)

/-- The copy-and-relink tail of `run_backup` (`if want_copy:`):
`copy_file` writes the build-config content under basename `n`
(`os.replace` semantics — any previous binding of `n` is replaced), then
the `latest` symlink is updated by unlink-if-exists followed by
`os.symlink(basename, latest)`. -/
def backupCopyAndLink (d : Dir) (n : String) (bc : String) : Dir :=
  dirSet (dirErase (dirSet d n (.file bc)) "latest") "latest" (.link n)

/-- `BuildType.run_backup`, for an already-defaulted name and with the
build-config file's SHA-256 hash `bc` precomputed (step 1 of the
algorithm).  `store = none` means the config-store subdirectory is
missing (`get_config_dir(verbose=False)` returned `cmap = None`), in
which case it is created empty and `want_copy = True`.  A name collision
(`elif name in cmap`) enters the probing loop.  The dispatch has **no
final `else`**: when the directory exists and the requested name is not a
key of the scanner map, `want_copy` keeps its initial `False` and the
function performs neither a copy nor a symlink update
(`Outcome.noCopy`).  The loop is fuel-bounded by `d.length + 1`, which
the theorems below show is always enough; the outer `none` is the
unreachable out-of-fuel case, and the `some .noCopy` loop arm is present
only for exhaustiveness (the loop only ever breaks with a copy target or
a hash match). -/
def run_backup (store : Option Dir) (name : String) (bc : String) :
    Option (Dir × Outcome) :=
  match store with
  | none => some (backupCopyAndLink [] name bc, .copied name)
  | some d =>
    if (cmapGet d name).isSome then
      match probeLoop d bc name (d.length + 1) 0 with
      | some (.copied n) => some (backupCopyAndLink d n bc, .copied n)
      | some (.notChanged n) => some (d, .notChanged n)
      | some .noCopy => some (d, .noCopy)
      | none => none
    else
      some (d, .noCopy)

/-- Zero-pad a decimal representation to two digits (`strftime` `%m`,
`%d`). -/
def pad2 (n : Nat) : String :=
  if n < 10 then "0" ++ Nat.repr n else Nat.repr n

/-- Zero-pad a decimal representation to four digits (`strftime` `%Y`). -/
def pad4 (n : Nat) : String :=
  if n < 10 then "000" ++ Nat.repr n
  else if n < 100 then "00" ++ Nat.repr n
  else if n < 1000 then "0" ++ Nat.repr n
  else Nat.repr n

/-- `BuildType.get_default_backup_name`:
`date.today().strftime("config_%Y-%m-%d")`, with today's date supplied as
an input. -/
def get_default_backup_name (y m d : Nat) : String :=
  "config_" ++ pad4 y ++ "-" ++ pad2 m ++ "-" ++ pad2 d

/-- The point at which an injected failure aborts `BuildType.copy_file`:
`tempfile.mkstemp` itself, `open(src)`, a read of the source, a write of
the temporary file, the protocol `os.close(tmp_fd)` of the fully-written
temporary file, or the final `os.replace`. -/
inductive CopyStage where
  | mkstempFail
  | openSrcFail
  | readFail
  | writeFail
  | closeFail
  | replaceFail
deriving DecidableEq

/-- The state `copy_file` manipulates, all inside the destination's
directory (`mkstemp(..., dir=dst_dir)` creates the temporary file next to
the destination): the destination's content, the temporary file's content
(`none` when no temporary file exists), and the two local variables of
the `finally` protocol — whether `tmp_fd` is still open and whether
`tmp_filepath` is still set. -/
structure CfState where
  dst : Option String
  tmpContent : Option String
  fdOpen : Bool
  tmpTracked : Bool
deriving DecidableEq

/-- The `finally` block of `copy_file`: close `tmp_fd` if still open,
unlink the temporary file if `tmp_filepath` is still set. -/
def cfFinally (s : CfState) : CfState :=
  { dst := s.dst
    tmpContent := if s.tmpTracked then none else s.tmpContent
    fdOpen := false
    tmpTracked := false }

/-- `BuildType.copy_file` with an injected failure point (`none` = no
failure): create a temporary file in the destination's directory, stream
the source into it (`frag` is the partial content present when a read or
write fails midway), close it, and `os.replace` it over the destination.
The `finally` block removes the temporary file on the open/read/write and
replace failure paths.  When the protocol close itself fails, the kernel
has already released the descriptor but the `tmp_fd` variable is still
set, so the `finally` block's second `os.close` raises `EBADF`; that
exception propagates out of the `finally` before `os.unlink` runs, and
the temporary file is left behind (the destination is still untouched).
Returns (succeeded, final state). -/
def copy_file (src : String) (dst0 : Option String) (frag : String)
    (fail : Option CopyStage) : Bool × CfState :=
  if fail = some .mkstempFail then
    (false, ⟨dst0, none, false, false⟩)
  else
    let s1 : CfState := ⟨dst0, some "", true, true⟩
    if fail = some .openSrcFail then (false, cfFinally s1)
    else if fail = some .readFail then (false, cfFinally { s1 with tmpContent := some frag })
    else if fail = some .writeFail then (false, cfFinally { s1 with tmpContent := some frag })
    else if fail = some .closeFail then (false, ⟨dst0, some src, false, true⟩)
    else
      let s2 : CfState := ⟨dst0, some src, false, true⟩
      if fail = some .replaceFail then (false, cfFinally s2)
      else (true, ⟨some src, none, false, false⟩)

/-- The inputs build-type detection looks at: the raw first line of
`<src>/Makefile` (with its trailing newline; `none` when the file is
missing, i.e. `open` raised `FileNotFoundError`), and the build
directory path. -/
structure BuildEnv where
  makefileFirstLine : Option String
  buildDir : String
deriving DecidableEq

/-- Remove a trailing run of characters satisfying `p` (the right half of
Python's `str.strip`). -/
def rstripP (p : Char → Bool) : List Char → List Char
  | [] => []
  | c :: t =>
    match rstripP p t with
    | [] => if p c then [] else [c]
    | r => c :: r

/-- Python `str.strip()` (no argument): remove leading and trailing
whitespace. -/
def pyStripWs (s : String) : String :=
  ⟨rstripP Char.isWhitespace (s.data.dropWhile Char.isWhitespace)⟩

/-- Python `str.strip(".")`: remove leading and trailing dots. -/
def stripDots (l : List Char) : List Char :=
  rstripP (fun c => c == '.') (l.dropWhile (fun c => c == '.'))

/-- `os.path.basename`: everything after the last `/`. -/
def pyBasename (p : String) : String :=
  ⟨(p.data.reverse.takeWhile (fun c => c != '/')).reverse⟩

/-- `GenericBuildType.detect`'s guessed config-store key:
`os.path.basename(build_dir).strip(".").partition(".")[0]`. -/
def genericGuessKey (buildDir : String) : String :=
  ⟨(stripDots (pyBasename buildDir).data).takeWhile (fun c => c != '.')⟩

/-- The key derivation as the spec words it — "directory name up to its
first `.`, leading dots stripped" (trailing dots untouched).  Stated from
the spec, to be compared with `genericGuessKey`. -/
def genericGuessKeySpec (buildDir : String) : String :=
  ⟨((pyBasename buildDir).data.dropWhile (fun c => c == '.')).takeWhile (fun c => c != '.')⟩

/-- The four build-type variants. -/
inductive BTy where
  | linux
  | buildroot
  | buildrootBusybox
  | generic
deriving DecidableEq

/-- The `NAME` class attribute of each variant. -/
def BTy.NAME : BTy → String
  | .linux => "linux"
  | .buildroot => "buildroot"
  | .buildrootBusybox => "buildroot-busybox"
  | .generic => "generic"

/-- `LinuxBuildType.detect`: returns `False` unconditionally (the
`guess_ckey` parameter is ignored). -/
def linuxDetect (_env : BuildEnv) (_guess : Bool) : Bool :=
  false

/-- `BuildrootBuildType.detect` (inherited unchanged by
`BuildrootBusyboxBuildType`): read the first line of `<src>/Makefile`,
strip it, and compare with the literal Buildroot header comment; a
missing Makefile is "not detected". -/
def buildrootDetect (env : BuildEnv) (_guess : Bool) : Bool :=
  match env.makefileFirstLine with
  | none => false
  | some l => pyStripWs l == "# Makefile for buildroot"

/-- `detect(guess_ckey)` of a variant, as (result, `self.ckey`
afterwards).  `ckey` starts as the variant's `NAME` (or the explicit
key); only `GenericBuildType.detect` with `guess_ckey=True` reassigns
it. -/
def detect (t : BTy) (env : BuildEnv) (guess : Bool) (ckey : String) : Bool × String :=
  match t with
  | .linux => (linuxDetect env guess, ckey)
  | .buildroot => (buildrootDetect env guess, ckey)
  | .buildrootBusybox => (buildrootDetect env guess, ckey)
  | .generic => (true, if guess then genericGuessKey env.buildDir else ckey)

/-- `KNOWN_BUILD_TYPES`, in declaration order. -/
def KNOWN_BUILD_TYPES : List BTy :=
  [.linux, .buildroot, .buildrootBusybox, .generic]

/-- The auto-detection loop of `main` (no explicit `-t`): instantiate
each known variant in order with `ckey = NAME`, call
`detect(guess_ckey=True)`, and keep the first that returns `True`
(`none` would mean "no build type found"). -/
def autoDetect (env : BuildEnv) : Option (BTy × String) :=
  KNOWN_BUILD_TYPES.findSome? fun t =>
    let r := detect t env true t.NAME
    if r.1 then some (t, r.2) else none

/-- `bmap_alias` of `get_build_type_map`: every variant's `NAME` plus its
`ALIASES`. -/
def build_type_alias_map (s : String) : Option BTy :=
  if s = "linux" then some .linux
  else if s = "buildroot" then some .buildroot
  else if s = "br" then some .buildroot
  else if s = "buildroot-busybox" then some .buildrootBusybox
  else if s = "br-busybox" then some .buildrootBusybox
  else if s = "brb" then some .buildrootBusybox
  else if s = "generic" then some .generic
  else none

/-- The explicit-type branch of `main`: a known name or alias is
instantiated and probed with `detect(guess_ckey=False)`; `False` raises
`RuntimeError("build type mismatch")`.  An unknown type string becomes a
`GenericBuildType` with that string as explicit key, probed with
`detect(guess_ckey=True)`. -/
def explicitSelect (tyname : String) (env : BuildEnv) : Except String (BTy × String) :=
  match build_type_alias_map tyname with
  | some t =>
    let r := detect t env false t.NAME
    if r.1 then .ok (t, r.2) else .error "build type mismatch"
  | none =>
    let r := detect .generic env true tyname
    if r.1 then .ok (.generic, r.2) else .error "build type mismatch"

/-- `cmapGet` through the optional store of `run_config`: `none` both
when the store directory is missing and when the name is not a key of
the scanner's map. -/
def storeCmapGet (store : Option Dir) (n : String) : Option String :=
  match store with
  | none => none
  | some d => cmapGet d n

/-- The numeric value of a decimal digit character (used only to state
that `Nat.repr` is left-invertible). -/
def chVal (c : Char) : Nat :=
  c.toNat - 48

/-- One step of reading a decimal numeral left to right. -/
def digitStep (a : Nat) (c : Char) : Nat :=
  a * 10 + chVal c

/-! ## Association-list directory lemmas -/

theorem lookupNode_cons (k : String) (v : FsNode) (d : Dir) (n : String) :
    lookupNode ((k, v) :: d) n = if n = k then some v else lookupNode d n := by
  simp only [lookupNode, List.lookup]
  by_cases h : n = k
  · rw [if_pos h, show (n == k) = true from beq_iff_eq.mpr h]
  · rw [if_neg h, show (n == k) = false from beq_eq_false_iff_ne.mpr h]

theorem dirErase_cons (k : String) (v : FsNode) (d : Dir) (n : String) :
    dirErase ((k, v) :: d) n = if k = n then dirErase d n else (k, v) :: dirErase d n := by
  simp only [dirErase, List.filter_cons]
  by_cases h : k = n
  · simp [h]
  · simp [h]

theorem lookupNode_dirErase_self (d : Dir) (n : String) :
    lookupNode (dirErase d n) n = none := by
  induction d with
  | nil => rfl
  | cons e d ih =>
    obtain ⟨k, v⟩ := e
    rw [dirErase_cons]
    by_cases h : k = n
    · rw [if_pos h]
      exact ih
    · rw [if_neg h, lookupNode_cons, if_neg (fun hnk => h hnk.symm)]
      exact ih

theorem lookupNode_dirErase_ne (d : Dir) (n m : String) (h : m ≠ n) :
    lookupNode (dirErase d n) m = lookupNode d m := by
  induction d with
  | nil => rfl
  | cons e d ih =>
    obtain ⟨k, v⟩ := e
    rw [dirErase_cons]
    by_cases hk : k = n
    · rw [if_pos hk, lookupNode_cons, if_neg (fun hm => h (hm.trans hk))]
      exact ih
    · rw [if_neg hk, lookupNode_cons, lookupNode_cons]
      by_cases hm : m = k
      · rw [if_pos hm, if_pos hm]
      · rw [if_neg hm, if_neg hm]
        exact ih

theorem lookupNode_dirSet_self (d : Dir) (n : String) (v : FsNode) :
    lookupNode (dirSet d n v) n = some v := by
  simp [dirSet, lookupNode_cons]

theorem lookupNode_dirSet_ne (d : Dir) (n m : String) (v : FsNode) (h : m ≠ n) :
    lookupNode (dirSet d n v) m = lookupNode d m := by
  simp [dirSet, lookupNode_cons, h, lookupNode_dirErase_ne d n m h]

theorem backupCopyAndLink_latest (d : Dir) (n : String) (bc : String) :
    lookupNode (backupCopyAndLink d n bc) "latest" = some (.link n) := by
  simp [backupCopyAndLink, lookupNode_dirSet_self]

theorem backupCopyAndLink_name (d : Dir) (n : String) (bc : String) (h : n ≠ "latest") :
    lookupNode (backupCopyAndLink d n bc) n = some (.file bc) := by
  rw [backupCopyAndLink, lookupNode_dirSet_ne _ _ _ _ h,
    lookupNode_dirErase_ne _ _ _ h, lookupNode_dirSet_self]

theorem backupCopyAndLink_other (d : Dir) (n : String) (bc : String) (m : String)
    (hn : m ≠ n) (hl : m ≠ "latest") :
    lookupNode (backupCopyAndLink d n bc) m = lookupNode d m := by
  rw [backupCopyAndLink, lookupNode_dirSet_ne _ _ _ _ hl,
    lookupNode_dirErase_ne _ _ _ hl, lookupNode_dirSet_ne _ _ _ _ hn]

theorem lookupNode_some_mem (d : Dir) (n : String) (v : FsNode)
    (h : lookupNode d n = some v) : n ∈ d.map Prod.fst := by
  induction d with
  | nil => simp [lookupNode, List.lookup] at h
  | cons e d ih =>
    obtain ⟨k, w⟩ := e
    rw [lookupNode_cons] at h
    by_cases hk : n = k
    · simp [hk]
    · simp only [hk, if_false] at h
      simp [ih h]

theorem cmapGet_isSome_mem (d : Dir) (n : String)
    (h : (cmapGet d n).isSome = true) : n ∈ d.map Prod.fst := by
  rw [cmapGet] at h
  by_cases hn : nameOk n
  · rw [if_pos hn, resolveFile] at h
    cases hl : lookupNode d n with
    | none => rw [hl] at h; simp at h
    | some v => exact lookupNode_some_mem d n v hl
  · rw [if_neg hn] at h
    simp at h

/-! ## Injectivity of decimal numerals, hence of the `fgen` name sequence -/

theorem chVal_digitChar : ∀ d : Nat, d < 10 → chVal (Nat.digitChar d) = d := by
  decide

theorem toDigitsCore_foldl :
    ∀ (fuel n : Nat) (acc : List Char), n < fuel →
      (Nat.toDigitsCore 10 fuel n acc).foldl digitStep 0 = acc.foldl digitStep n := by
  intro fuel
  induction fuel with
  | zero => intro n acc h; omega
  | succ fuel ih =>
    intro n acc h
    simp only [Nat.toDigitsCore]
    by_cases h0 : n / 10 = 0
    · rw [if_pos h0, List.foldl_cons]
      simp only [digitStep]
      rw [chVal_digitChar (n % 10) (Nat.mod_lt n (by norm_num))]
      have hn : 0 * 10 + n % 10 = n := by omega
      rw [hn]
    · rw [if_neg h0, ih (n / 10) _ (by omega), List.foldl_cons]
      simp only [digitStep]
      rw [chVal_digitChar (n % 10) (Nat.mod_lt n (by norm_num))]
      have hn : n / 10 * 10 + n % 10 = n := by omega
      rw [hn]

theorem repr_foldl (n : Nat) : (Nat.repr n).data.foldl digitStep 0 = n := by
  have h : (Nat.repr n).data = Nat.toDigitsCore 10 (n + 1) n [] := rfl
  rw [h, toDigitsCore_foldl (n + 1) n [] (Nat.lt_succ_self n)]
  rfl

theorem repr_data_inj (a b : Nat) (h : (Nat.repr a).data = (Nat.repr b).data) : a = b := by
  have ha := repr_foldl a
  have hb := repr_foldl b
  rw [h] at ha
  exact ha.symm.trans hb

theorem fgen_succ_data (base : String) (k : Nat) :
    (fgen base (k + 1)).data = base.data ++ ('-' :: 'r' :: (Nat.repr (k + 1)).data) := by
  show ((base ++ "-r") ++ Nat.repr (k + 1)).data = _
  rw [String.data_append, String.data_append, List.append_assoc]
  rfl

theorem fgen_inj (base : String) : Function.Injective (fgen base) := by
  intro i j h
  match i, j with
  | 0, 0 => rfl
  | 0, j + 1 =>
    exfalso
    have hd : base.data = (fgen base (j + 1)).data := congrArg String.data h
    rw [fgen_succ_data] at hd
    have hl := congrArg List.length hd
    simp only [List.length_append, List.length_cons] at hl
    omega
  | i + 1, 0 =>
    exfalso
    have hd : base.data = (fgen base (i + 1)).data := congrArg String.data h.symm
    rw [fgen_succ_data] at hd
    have hl := congrArg List.length hd
    simp only [List.length_append, List.length_cons] at hl
    omega
  | i + 1, j + 1 =>
    have hd := congrArg String.data h
    rw [fgen_succ_data, fgen_succ_data] at hd
    have h2 := List.append_cancel_left hd
    simp only [List.cons.injEq, true_and] at h2
    rw [repr_data_inj (i + 1) (j + 1) h2]

theorem fgen_succ_ne_latest (base : String) (k : Nat) : fgen base (k + 1) ≠ "latest" := by
  intro h
  have hm : '-' ∈ (fgen base (k + 1)).data := by
    rw [fgen_succ_data]
    exact List.mem_append_right _ (List.mem_cons_self _ _)
  rw [h] at hm
  exact absurd hm (by decide)

/-! ## Pigeonhole: the probing loop always terminates within `d.length + 1` steps -/

theorem cmap_fgen_bound (d : Dir) (base : String) (m : Nat)
    (h : ∀ i, i < m → (cmapGet d (fgen base i)).isSome = true) : m ≤ d.length := by
  have hnd : ((List.range m).map (fgen base)).Nodup :=
    (List.nodup_range m).map (fgen_inj base)
  have hsub : (List.range m).map (fgen base) ⊆ d.map Prod.fst := by
    intro x hx
    rw [List.mem_map] at hx
    obtain ⟨i, hi, rfl⟩ := hx
    rw [List.mem_range] at hi
    exact cmapGet_isSome_mem d _ (h i hi)
  have hle := (hnd.subperm hsub).length_le
  simpa using hle

theorem exists_fgen_none (d : Dir) (base : String) :
    ∃ i, i ≤ d.length ∧ cmapGet d (fgen base i) = none := by
  by_contra hc
  push_neg at hc
  have hall : ∀ i, i < d.length + 1 → (cmapGet d (fgen base i)).isSome = true := by
    intro i hi
    exact Option.ne_none_iff_isSome.mp (hc i (by omega))
  have := cmap_fgen_bound d base (d.length + 1) hall
  omega

/-! ## Correctness of the probing loop -/

theorem probeLoop_finds_copy (d : Dir) (bc base : String) :
    ∀ (fuel i k : Nat), i ≤ k → k < i + fuel →
      (∀ j, i ≤ j → j < k → ∃ h, cmapGet d (fgen base j) = some h ∧ bc ≠ h) →
      cmapGet d (fgen base k) = none →
      probeLoop d bc base fuel i = some (.copied (fgen base k)) := by
  intro fuel
  induction fuel with
  | zero => intro i k h1 h2 _ _; omega
  | succ fuel ih =>
    intro i k hik hk hprev hnone
    rcases Nat.eq_or_lt_of_le hik with rfl | hlt
    · simp [probeLoop, hnone]
    · obtain ⟨h, hsome, hne⟩ := hprev i le_rfl hlt
      simp only [probeLoop, hsome]
      rw [if_neg hne]
      exact ih (i + 1) k hlt (by omega) (fun j hj1 hj2 => hprev j (by omega) hj2) hnone

theorem probeLoop_finds_match (d : Dir) (bc base : String) :
    ∀ (fuel i k : Nat), i ≤ k → k < i + fuel →
      (∀ j, i ≤ j → j < k → ∃ h, cmapGet d (fgen base j) = some h ∧ bc ≠ h) →
      cmapGet d (fgen base k) = some bc →
      probeLoop d bc base fuel i = some (.notChanged (fgen base k)) := by
  intro fuel
  induction fuel with
  | zero => intro i k h1 h2 _ _; omega
  | succ fuel ih =>
    intro i k hik hk hprev hmatch
    rcases Nat.eq_or_lt_of_le hik with rfl | hlt
    · simp [probeLoop, hmatch]
    · obtain ⟨h, hsome, hne⟩ := hprev i le_rfl hlt
      simp only [probeLoop, hsome]
      rw [if_neg hne]
      exact ih (i + 1) k hlt (by omega) (fun j hj1 hj2 => hprev j (by omega) hj2) hmatch

/-! ## Claim theorems -/

/-- C1 status: the claim is right and the code is wrong.  The
`if cmap is None / elif name in cmap` dispatch of `run_backup`
(lines 280-307) has no `else` branch, so when the config-store
subdirectory exists and the requested name is *not* in the scanner map,
`want_copy` keeps its initial `False`: no copy is performed and the
`latest` symlink is not touched — the "copy unconditionally under that
name" of the claim and spec (step 4, and the empty-store scenario) is
exactly what the code fails to do.  This theorem evaluates the code on
that branch: the store comes back unchanged and the run is a silent
no-op. -/
theorem backup_no_collision_skips (d : Dir) (name bc : String)
    (h1 : cmapGet d name = none) :
    run_backup (some d) name bc = some (d, .noCopy)
    ∧ Outcome.stdout .noCopy = none := by
  constructor
  · simp [run_backup, h1]
  · rfl

/-- Witness for C1's failing input, which is the claim's own scenario:
store directory exists and is empty, backup name defaulted from today's
date 2024-01-01.  The code neither creates `config_2024-01-01` nor the
`latest` symlink: the store is returned exactly as it was. -/
theorem backup_no_collision_skips_witness :
    get_default_backup_name 2024 1 1 = "config_2024-01-01"
    ∧ cmapGet [] (get_default_backup_name 2024 1 1) = none
    ∧ run_backup (some []) (get_default_backup_name 2024 1 1) "h1" = some ([], .noCopy)
    ∧ lookupNode [] "config_2024-01-01" = none
    ∧ lookupNode [] "latest" = none := by
  have hth := backup_no_collision_skips [] (get_default_backup_name 2024 1 1) "h1" (by decide)
  exact ⟨by decide, by decide, hth.1, by decide, by decide⟩

/-- C2. Backup with a name collision where every existing candidate's
hash differs from the build-config hash: there is a `k` such that
`fgen name k` is the first (lowest-numbered) candidate absent from the
entry map (all candidates below `k` are present), and the run copies the
build-config content under exactly that candidate name, repoints `latest`
to it, and touches no other name. -/
theorem backup_collision_all_differ (d : Dir) (name bc : String)
    (h1 : (cmapGet d name).isSome = true)
    (h2 : ∀ i h, cmapGet d (fgen name i) = some h → h ≠ bc) :
    ∃ k, cmapGet d (fgen name k) = none
      ∧ (∀ j, j < k → (cmapGet d (fgen name j)).isSome = true)
      ∧ run_backup (some d) name bc
          = some (backupCopyAndLink d (fgen name k) bc, .copied (fgen name k))
      ∧ lookupNode (backupCopyAndLink d (fgen name k) bc) (fgen name k) = some (.file bc)
      ∧ lookupNode (backupCopyAndLink d (fgen name k) bc) "latest"
          = some (.link (fgen name k))
      ∧ ∀ m, m ≠ fgen name k → m ≠ "latest" →
          lookupNode (backupCopyAndLink d (fgen name k) bc) m = lookupNode d m := by
  obtain ⟨i0, hi0L, hi0⟩ := exists_fgen_none d name
  have hex : ∃ i, cmapGet d (fgen name i) = none := ⟨i0, hi0⟩
  have hspec := Nat.find_spec hex
  have hmin : ∀ j, j < Nat.find hex → (cmapGet d (fgen name j)).isSome = true :=
    fun j hj => Option.ne_none_iff_isSome.mp (Nat.find_min hex hj)
  have hkL : Nat.find hex ≤ d.length := le_trans (Nat.find_min' hex hi0) hi0L
  have hk0 : Nat.find hex ≠ 0 := by
    intro h0
    rw [h0] at hspec
    have hspec' : cmapGet d name = none := hspec
    rw [hspec'] at h1
    simp at h1
  have hne_latest : fgen name (Nat.find hex) ≠ "latest" := by
    obtain ⟨k', hk'⟩ := Nat.exists_eq_succ_of_ne_zero hk0
    rw [hk']
    exact fgen_succ_ne_latest name k'
  have hprobe : probeLoop d bc name (d.length + 1) 0
      = some (.copied (fgen name (Nat.find hex))) := by
    refine probeLoop_finds_copy d bc name (d.length + 1) 0 (Nat.find hex)
      (Nat.zero_le _) (by omega) ?_ hspec
    intro j _ hjk
    obtain ⟨h, hs⟩ := Option.isSome_iff_exists.mp (hmin j hjk)
    exact ⟨h, hs, Ne.symm (h2 j h hs)⟩
  refine ⟨Nat.find hex, hspec, hmin, ?_,
    backupCopyAndLink_name d _ bc hne_latest, backupCopyAndLink_latest d _ bc,
    fun m hm1 hm2 => backupCopyAndLink_other d _ bc m hm1 hm2⟩
  simp [run_backup, h1, hprobe]

/-- Witness for C2, which is the claim's scenario: store holds `cfg` with
hash `h1` and `latest -> cfg`; the build config now hashes to `h2 ≠ h1`;
backing up under `cfg` creates `cfg-r1` and repoints `latest`. -/
theorem backup_collision_all_differ_witness :
    (cmapGet [("cfg", FsNode.file "h1"), ("latest", FsNode.link "cfg")] "cfg").isSome = true
    ∧ ∃ k,
      cmapGet [("cfg", FsNode.file "h1"), ("latest", FsNode.link "cfg")] (fgen "cfg" k) = none
      ∧ (∀ j, j < k →
          (cmapGet [("cfg", FsNode.file "h1"), ("latest", FsNode.link "cfg")]
            (fgen "cfg" j)).isSome = true)
      ∧ run_backup (some [("cfg", FsNode.file "h1"), ("latest", FsNode.link "cfg")]) "cfg" "h2"
          = some (backupCopyAndLink [("cfg", FsNode.file "h1"), ("latest", FsNode.link "cfg")]
              (fgen "cfg" k) "h2", .copied (fgen "cfg" k))
      ∧ lookupNode (backupCopyAndLink [("cfg", FsNode.file "h1"), ("latest", FsNode.link "cfg")]
            (fgen "cfg" k) "h2") (fgen "cfg" k) = some (.file "h2")
      ∧ lookupNode (backupCopyAndLink [("cfg", FsNode.file "h1"), ("latest", FsNode.link "cfg")]
            (fgen "cfg" k) "h2") "latest" = some (.link (fgen "cfg" k))
      ∧ ∀ m, m ≠ fgen "cfg" k → m ≠ "latest" →
          lookupNode (backupCopyAndLink [("cfg", FsNode.file "h1"), ("latest", FsNode.link "cfg")]
            (fgen "cfg" k) "h2") m
          = lookupNode [("cfg", FsNode.file "h1"), ("latest", FsNode.link "cfg")] m := by
  refine ⟨by decide, backup_collision_all_differ _ "cfg" "h2" (by decide) ?_⟩
  intro i h hi
  match i with
  | 0 =>
    rw [show cmapGet [("cfg", FsNode.file "h1"), ("latest", FsNode.link "cfg")]
      (fgen "cfg" 0) = some "h1" from by decide] at hi
    injection hi with heq
    rw [← heq]
    decide
  | i + 1 =>
    have hne1 : fgen "cfg" (i + 1) ≠ "cfg" := by
      intro hcontra
      exact absurd (fgen_inj "cfg" (show fgen "cfg" (i + 1) = fgen "cfg" 0 from hcontra))
        (by omega)
    have hne2 := fgen_succ_ne_latest "cfg" i
    have hlk : lookupNode [("cfg", FsNode.file "h1"), ("latest", FsNode.link "cfg")]
        (fgen "cfg" (i + 1)) = none := by
      rw [lookupNode_cons, if_neg hne1, lookupNode_cons, if_neg hne2]
      rfl
    have hcm : cmapGet [("cfg", FsNode.file "h1"), ("latest", FsNode.link "cfg")]
        (fgen "cfg" (i + 1)) = none := by
      rw [cmapGet]
      by_cases hok : nameOk (fgen "cfg" (i + 1))
      · rw [if_pos hok]
        simp only [resolveFile, hlk]
      · rw [if_neg hok]
    rw [hcm] at hi
    exact Option.noConfusion hi

/-- C3. For the backup operation: if during probing (candidate `k`,
with every earlier candidate present but of different hash — `k = 0` is
the target name itself), the stored candidate's hash equals the
build-config hash, then no copy is performed: the run returns the store
`d` exactly as it was (so in particular `latest` is untouched), and the
"file not changed" message names that existing file. -/
theorem backup_hash_match_no_copy (d : Dir) (name bc : String) (k : Nat)
    (h1 : (cmapGet d name).isSome = true)
    (hprev : ∀ j, j < k → ∃ h, cmapGet d (fgen name j) = some h ∧ h ≠ bc)
    (hk : cmapGet d (fgen name k) = some bc) :
    run_backup (some d) name bc = some (d, .notChanged (fgen name k))
    ∧ Outcome.stdout (.notChanged (fgen name k))
        = some ("File not changed: " ++ fgen name k) := by
  have hbound : k + 1 ≤ d.length := by
    refine cmap_fgen_bound d name (k + 1) ?_
    intro i hi
    rcases Nat.lt_succ_iff_lt_or_eq.mp hi with hlt | rfl
    · obtain ⟨h, hs, -⟩ := hprev i hlt
      rw [hs]
      rfl
    · rw [hk]
      rfl
  have hprobe : probeLoop d bc name (d.length + 1) 0
      = some (.notChanged (fgen name k)) := by
    refine probeLoop_finds_match d bc name (d.length + 1) 0 k (Nat.zero_le k) (by omega) ?_ hk
    intro j _ hjk
    obtain ⟨h, hs, hne⟩ := hprev j hjk
    exact ⟨h, hs, Ne.symm hne⟩
  constructor
  · simp [run_backup, h1, hprobe]
  · rfl

/-- Witness for C3: store holds a single file `a` whose hash `h` equals
the build-config hash; backing up under the colliding name `a` changes
nothing. -/
theorem backup_hash_match_no_copy_witness :
    (cmapGet [("a", FsNode.file "h")] "a").isSome = true
    ∧ cmapGet [("a", FsNode.file "h")] (fgen "a" 0) = some "h"
    ∧ run_backup (some [("a", FsNode.file "h")]) "a" "h"
        = some ([("a", FsNode.file "h")], .notChanged (fgen "a" 0)) := by
  have hth := backup_hash_match_no_copy [("a", FsNode.file "h")] "a" "h" 0 (by decide)
    (fun j hj => absurd hj (Nat.not_lt_zero j)) (by decide)
  exact ⟨by decide, by decide, hth.1⟩

/-- C4. Auto-detection tries the variants in the fixed order
linux, buildroot, buildroot-busybox, generic with `guess_ckey=True` and
selects the first whose detect returns true; in particular, whenever both
the buildroot and the generic detector recognize the tree, buildroot is
selected (linux never matches during auto-probing). -/
theorem auto_detection_order (env : BuildEnv)
    (hbr : buildrootDetect env true = true)
    (_hgen : (detect .generic env true (BTy.NAME .generic)).1 = true) :
    autoDetect env = some (.buildroot, "buildroot") := by
  simp [autoDetect, KNOWN_BUILD_TYPES, List.findSome?_cons, detect, linuxDetect, hbr, BTy.NAME]

/-- Witness for C4: a source tree whose Makefile starts with the literal
Buildroot header (recognized by `buildroot`, and by `generic` which
recognizes everything) auto-detects as buildroot. -/
theorem auto_detection_order_witness :
    buildrootDetect ⟨some "# Makefile for buildroot\n", "/b"⟩ true = true
    ∧ (detect .generic ⟨some "# Makefile for buildroot\n", "/b"⟩ true
        (BTy.NAME .generic)).1 = true
    ∧ autoDetect ⟨some "# Makefile for buildroot\n", "/b"⟩
        = some (.buildroot, "buildroot") :=
  ⟨by decide, by decide,
    auto_detection_order ⟨some "# Makefile for buildroot\n", "/b"⟩ (by decide) (by decide)⟩

/-- C5. [claim is right, code is wrong] `LinuxBuildType.detect` returns
`False` unconditionally — it ignores its `guess_ckey` parameter — so the
explicit-type branch of `main` (`-t linux`) raises the fatal
`RuntimeError("build type mismatch")` for *every* source tree, linux
trees included, contradicting the program's own header documentation that
lists `linux` among the selectable build types. -/
theorem explicit_linux_always_mismatch (env : BuildEnv) :
    explicitSelect "linux" env = .error "build type mismatch"
    ∧ linuxDetect env false = false ∧ linuxDetect env true = false :=
  ⟨rfl, rfl, rfl⟩

/-- C6. A restore ("config") request whose name is not present in the
config-store mapping — the store directory is missing, or the scanner map
does not contain the name — returns failure and leaves the build-config
file unmodified.  (No exception escapes: the code catches the `KeyError`
and reports "config file not found"; the model is a total function.) -/
theorem restore_missing_name_fails (store : Option Dir) (name : String)
    (bcOld : Option String) (h : storeCmapGet store name = none) :
    run_config store name bcOld = (false, bcOld) := by
  cases store with
  | none => rfl
  | some d =>
    have hd : cmapGet d name = none := h
    rw [run_config]
    by_cases he : (cmapKeys d).isEmpty = true
    · rw [if_pos he]
    · rw [if_neg he]
      simp only [hd]

/-- Witness for C6: restoring the absent name `b` from a store that holds
only `a` fails and leaves the build-config content unchanged. -/
theorem restore_missing_name_fails_witness :
    storeCmapGet (some [("a", FsNode.file "x")]) "b" = none
    ∧ run_config (some [("a", FsNode.file "x")]) "b" (some "old") = (false, some "old") :=
  ⟨by decide, restore_missing_name_fails (some [("a", FsNode.file "x")]) "b" (some "old")
    (by decide)⟩

/-- Counterexample to C7 as stated ("on every failure path the temporary
file is removed before control returns"): when the protocol
`os.close(tmp_fd)` of the fully-written temporary file fails, the
`finally` block re-closes the already-released descriptor, the `EBADF`
raised there propagates before `os.unlink`, and the temporary file is
left behind — a concrete failure path on which the temporary file is
*not* removed (the destination is still untouched). -/
theorem copy_file_close_leak :
    (copy_file "new" (some "old") "frag" (some .closeFail)).1 = false
    ∧ (copy_file "new" (some "old") "frag" (some .closeFail)).2.tmpContent = some "new"
    ∧ (copy_file "new" (some "old") "frag" (some .closeFail)).2.dst = some "old" := by
  decide

/-- C7 as amended: the copy primitive writes to a temporary file in the
destination's directory, closes it, then atomically renames it over the
destination.  On every failure path the call reports failure and the
destination is untouched; on every failure path *except a failure of the
protocol close* the temporary file has been removed before control
returns, while a failed close leaks the fully-written temporary file (the
finally block's second close raises before the unlink).  With no failure
the destination afterwards holds the source content and no temporary file
remains. -/
theorem copy_file_cleanup (src : String) (dst0 : Option String) (frag : String)
    (fail : Option CopyStage) (h : fail ≠ none) :
    (copy_file src dst0 frag fail).1 = false
    ∧ (copy_file src dst0 frag fail).2.dst = dst0
    ∧ (fail ≠ some .closeFail → (copy_file src dst0 frag fail).2.tmpContent = none)
    ∧ (fail = some .closeFail → (copy_file src dst0 frag fail).2.tmpContent = some src)
    ∧ (copy_file src dst0 frag none).1 = true
    ∧ (copy_file src dst0 frag none).2.dst = some src
    ∧ (copy_file src dst0 frag none).2.tmpContent = none := by
  match fail with
  | none => exact absurd rfl h
  | some stage => cases stage <;> simp [copy_file, cfFinally]

/-- Witness for the amended C7: a failing `os.replace` leaves the old
destination in place and no temporary file behind. -/
theorem copy_file_cleanup_witness :
    (some CopyStage.replaceFail ≠ (none : Option CopyStage))
    ∧ (copy_file "new" (some "old") "frag" (some .replaceFail)).1 = false
    ∧ (copy_file "new" (some "old") "frag" (some .replaceFail)).2.dst = some "old"
    ∧ (copy_file "new" (some "old") "frag" (some .replaceFail)).2.tmpContent = none := by
  have hth := copy_file_cleanup "new" (some "old") "frag" (some .replaceFail) (by decide)
  exact ⟨by decide, hth.1, hth.2.1, hth.2.2.1 (by decide)⟩

theorem data_eq_nil_imp (s : String) (h : s.data = []) : s = "" := by
  cases s with
  | mk data =>
    cases h
    rfl

theorem nameOk_iff_of_ne_nil (n : String) (h : n ≠ "") :
    nameOk n = true
      ↔ (['.'].isPrefixOf n.data = false
        ∧ "README".data.isPrefixOf n.data = false
        ∧ ".tmp".data.isSuffixOf n.data = false) := by
  rw [nameOk]
  cases hd : n.data with
  | nil => exact absurd (data_eq_nil_imp n hd) h
  | cons c rest =>
    simp only [List.isPrefixOf, Bool.and_eq_true, Bool.not_eq_true', bne_iff_ne, ne_eq,
      Bool.and_eq_false_iff, beq_eq_false_iff_ne]
    constructor
    · rintro ⟨⟨hc, hre⟩, htmp⟩
      exact ⟨Or.inl (fun hh => hc hh.symm), hre, htmp⟩
    · rintro ⟨hc, hre, htmp⟩
      refine ⟨⟨?_, hre⟩, htmp⟩
      rcases hc with hc | hfalse
      · exact fun hh => hc hh.symm
      · exact absurd hfalse (by simp [List.isPrefixOf])

/-- C8. For every directory listing (directory entries never have empty
names), the scanner's result map contains exactly the names of entries
that are regular files with symlinks followed (`is_file` true) and whose
basename does not start with `.`, does not start with `README`, and does
not end with `.tmp`. -/
theorem scanner_filter (entries : List ScanEntry) (h : ∀ e ∈ entries, e.name ≠ "") :
    ∀ n : String,
      (∃ e ∈ list_config_dir entries, e.name = n)
      ↔ (∃ e ∈ entries, e.name = n ∧ e.isFile = true
          ∧ ['.'].isPrefixOf n.data = false
          ∧ "README".data.isPrefixOf n.data = false
          ∧ ".tmp".data.isSuffixOf n.data = false) := by
  intro n
  constructor
  · rintro ⟨e, he, rfl⟩
    rw [list_config_dir, List.mem_filter] at he
    obtain ⟨hmem, hcond⟩ := he
    rw [Bool.and_eq_true] at hcond
    obtain ⟨hfile, hok⟩ := hcond
    obtain ⟨hp1, hp2, hp3⟩ := (nameOk_iff_of_ne_nil e.name (h e hmem)).mp hok
    exact ⟨e, hmem, rfl, hfile, hp1, hp2, hp3⟩
  · rintro ⟨e, he, rfl, hfile, hp1, hp2, hp3⟩
    refine ⟨e, ?_, rfl⟩
    rw [list_config_dir, List.mem_filter]
    refine ⟨he, ?_⟩
    rw [Bool.and_eq_true]
    exact ⟨hfile, (nameOk_iff_of_ne_nil e.name (h e he)).mpr ⟨hp1, hp2, hp3⟩⟩

/-- Witness for C8, on the spec's list scenario: a directory with entries
`a`, `b`, `.hidden`, `README.md`, `x.tmp` (all regular files). -/
theorem scanner_filter_witness :
    (∀ e ∈ [ScanEntry.mk "a" true, ScanEntry.mk "b" true, ScanEntry.mk ".hidden" true,
      ScanEntry.mk "README.md" true, ScanEntry.mk "x.tmp" true], e.name ≠ "")
    ∧ ((∃ e ∈ list_config_dir [ScanEntry.mk "a" true, ScanEntry.mk "b" true,
          ScanEntry.mk ".hidden" true, ScanEntry.mk "README.md" true,
          ScanEntry.mk "x.tmp" true], e.name = "a")
        ↔ (∃ e ∈ [ScanEntry.mk "a" true, ScanEntry.mk "b" true, ScanEntry.mk ".hidden" true,
            ScanEntry.mk "README.md" true, ScanEntry.mk "x.tmp" true], e.name = "a"
            ∧ e.isFile = true
            ∧ ['.'].isPrefixOf "a".data = false
            ∧ "README".data.isPrefixOf "a".data = false
            ∧ ".tmp".data.isSuffixOf "a".data = false)) :=
  ⟨by decide,
    scanner_filter [ScanEntry.mk "a" true, ScanEntry.mk "b" true, ScanEntry.mk ".hidden" true,
      ScanEntry.mk "README.md" true, ScanEntry.mk "x.tmp" true] (by decide) "a"⟩

theorem rstripP_eq_nil_takeWhile (p : Char → Bool) :
    ∀ l : List Char, rstripP p l = [] → l.takeWhile (fun c => !(p c)) = [] := by
  intro l
  induction l with
  | nil => intro _; rfl
  | cons c t ih =>
    intro h
    rw [rstripP] at h
    cases hr : rstripP p t with
    | nil =>
      simp only [hr] at h
      by_cases hp : p c
      · simp [List.takeWhile_cons, hp]
      · simp [hp] at h
    | cons a r =>
      simp only [hr] at h
      exact List.noConfusion h

theorem takeWhile_rstripP (p : Char → Bool) :
    ∀ l : List Char,
      (rstripP p l).takeWhile (fun c => !(p c)) = l.takeWhile (fun c => !(p c)) := by
  intro l
  induction l with
  | nil => rfl
  | cons c t ih =>
    rw [rstripP]
    cases hr : rstripP p t with
    | nil =>
      simp only [hr]
      by_cases hp : p c
      · simp [List.takeWhile_cons, hp, rstripP_eq_nil_takeWhile p t hr]
      · simp [List.takeWhile_cons, hp, rstripP_eq_nil_takeWhile p t hr]
    | cons a r =>
      simp only [hr]
      rw [hr] at ih
      by_cases hp : p c
      · simp [List.takeWhile_cons, hp]
      · simp [List.takeWhile_cons, hp, ih]

theorem genericGuessKey_eq_spec (bd : String) :
    genericGuessKey bd = genericGuessKeySpec bd := by
  rw [genericGuessKey, genericGuessKeySpec, stripDots]
  exact congrArg String.mk (takeWhile_rstripP (fun c => c == '.') _)

/-- C9. `GenericBuildType.detect` with `guess_ckey=True` always returns
true and sets the config-store key to the build directory's basename with
leading dots stripped, truncated at its first `.` (the code strips
trailing dots as well, which `genericGuessKey_eq_spec` shows makes no
difference); in particular basename `.foo.bar` yields key `foo`. -/
theorem generic_detect_guess_key (env : BuildEnv) (ckey0 : String) :
    detect .generic env true ckey0 = (true, genericGuessKeySpec env.buildDir)
    ∧ genericGuessKey ".foo.bar" = "foo" := by
  constructor
  · simp [detect, genericGuessKey_eq_spec]
  · decide

/-- C10. A config-store subdirectory that exists but whose scanner map
is empty (only hidden/`README*`/`*.tmp` entries, or nothing at all) makes
both the list and the restore operation return failure exactly as a
missing directory does: `run_list` prints nothing, `run_config` leaves the
build-config file unmodified. -/
theorem empty_scanner_map_like_missing (d : Dir) (hempty : cmapKeys d = [])
    (cdir : String) (lf : Bool) (name : String) (bc : Option String) :
    run_list cdir (some d) lf = (false, [])
    ∧ run_list cdir none lf = (false, [])
    ∧ run_config (some d) name bc = (false, bc)
    ∧ run_config none name bc = (false, bc) := by
  refine ⟨?_, rfl, ?_, rfl⟩
  · simp [run_list, hempty]
  · simp [run_config, hempty]

/-- Witness for C10: a directory holding only `.hidden`, `README.md` and
`z.tmp` entries scans empty, and list/restore fail on it just as on a
missing directory. -/
theorem empty_scanner_map_like_missing_witness :
    cmapKeys [(".hidden", FsNode.file "x"), ("README.md", FsNode.file "y"),
      ("z.tmp", FsNode.file "w")] = []
    ∧ run_list "/c" (some [(".hidden", FsNode.file "x"), ("README.md", FsNode.file "y"),
        ("z.tmp", FsNode.file "w")]) true = (false, [])
    ∧ run_config (some [(".hidden", FsNode.file "x"), ("README.md", FsNode.file "y"),
        ("z.tmp", FsNode.file "w")]) "latest" (some "old") = (false, some "old") := by
  have hth := empty_scanner_map_like_missing
    [(".hidden", FsNode.file "x"), ("README.md", FsNode.file "y"), ("z.tmp", FsNode.file "w")]
    (by decide) "/c" true "latest" (some "old")
  exact ⟨by decide, hth.1, hth.2.2.1⟩

end KconfigSelect
